import Mathlib

/-!
Verification development for the swarmkit excerpt.

The development shallowly embeds two subsystems:

- the node dispatcher of manager/dispatcher/dispatcher.go (registration,
  sessions, heartbeat liveness, the task stream and the session stream), and
- the certificate-authority operations exercised by ca/certificates_test.go
  (CSR signing, chain validation and cross-signing).

Go maps are embedded as association lists with at most one binding per key
being observable (lookup finds the first binding).  Durations and instants
are embedded as integers (nanoseconds).  Randomness, fresh identifiers and
the current time are passed in explicitly.  Fallible operations return
Except values.
-/

namespace Swarmkit

/-- Finds the value bound to a key in an association table, mirroring a Go
map lookup. -/
def lookupTab {α : Type} (k : String) : List (String × α) → Option α
  | [] => none
  | (k2, v) :: rest => if k2 = k then some v else lookupTab k rest

/-- Binds a key in an association table, replacing an existing binding,
mirroring a Go map assignment. -/
def setTab {α : Type} (k : String) (v : α) : List (String × α) → List (String × α)
  | [] => [(k, v)]
  | (k2, v2) :: rest => if k2 = k then (k, v) :: rest else (k2, v2) :: setTab k v rest

/-- Removes the binding of a key from an association table, mirroring a Go
map delete. -/
def eraseTab {α : Type} (k : String) : List (String × α) → List (String × α)
  | [] => []
  | (k2, v2) :: rest => if k2 = k then eraseTab k rest else (k2, v2) :: eraseTab k rest

namespace dispatcher

/-- NodeStatus.State of api.Node, restricted to the states the dispatcher
uses (UNKNOWN is the zero value, READY is set on Register, DOWN on
heartbeat expiry). -/
inductive NodeState where
  | unknown
  | ready
  | down
deriving DecidableEq

/-- api.NodeSpec, restricted to the ID field, the only field the dispatcher
reads. -/
structure NodeSpec where
  id : String
deriving DecidableEq

/-- api.Node: a spec plus a status. -/
structure Node where
  spec : NodeSpec
  status : NodeState
deriving DecidableEq

/-- api.Task, restricted to the fields the dispatcher reads: ID, NodeID and
Status (statuses abstracted to a number). -/
structure Task where
  id : String
  nodeID : String
  status : Nat
deriving DecidableEq

/-- Modelled from the spec: the heartbeat timer of pkg/heartbeat is not part
of the excerpt.  Per section 4.G it is a deadline object: Update sets the
ttl used by the next Beat, and Beat resets the deadline to now plus the
ttl. -/
structure Heartbeat where
  ttl : Int
  deadline : Int
deriving DecidableEq

/-- Heartbeat.Update: stores a new ttl for subsequent beats. -/
def Heartbeat.update (hb : Heartbeat) (ttl : Int) : Heartbeat :=
  { hb with ttl := ttl }

/-- Heartbeat.Beat: resets the deadline to now plus the stored ttl. -/
def Heartbeat.beat (hb : Heartbeat) (now : Int) : Heartbeat :=
  { hb with deadline := now + hb.ttl }

/-- heartbeat.New: a fresh timer with the given timeout, armed now. -/
def heartbeatNew (timeout : Int) (now : Int) : Heartbeat :=
  { ttl := timeout, deadline := now + timeout }

/-- The registeredNode record of dispatcher.go: a session identifier local
to the dispatcher, a heartbeat timer, a task list (present in the struct,
never written by the excerpt) and the node. -/
structure RegisteredNode where
  sessionID : String
  heartbeat : Heartbeat
  tasks : List String
  node : Node
deriving DecidableEq

/-- The periodChooser of dispatcher.go: a base period and a jitter bound. -/
structure PeriodChooser where
  period : Int
  epsilon : Int
deriving DecidableEq

/-- periodChooser.Choose: adds a jitter drawn from the half-open interval
from minus epsilon to epsilon to the base period.  The raw random draw is
passed in; rand.Int63n reduces it to the range from 0 inclusive to twice
epsilon exclusive, embedded here as the euclidean remainder. -/
def PeriodChooser.choose (pc : PeriodChooser) (draw : Int) : Int :=
  let adj : Int := if 0 < pc.epsilon then draw % (2 * pc.epsilon) - pc.epsilon else 0
  pc.period + adj

/-- The Dispatcher state: the reported address, the registered-node map,
the grace-period multiplier and the period chooser. -/
structure Dispatcher where
  addr : String
  nodes : List (String × RegisteredNode)
  gracePeriodMultiplier : Int
  periodChooser : PeriodChooser
deriving DecidableEq

/-- The backing store contents the dispatcher touches: the node table and
the task table, both keyed by ID. -/
structure Store where
  nodes : List (String × Node)
  tasks : List (String × Task)
deriving DecidableEq

/-- Modelled from the spec: the state package is not part of the excerpt.
Store errors distinguish an existing row on create and a missing row on
update. -/
inductive StoreErr where
  | exist
  | notExist
deriving DecidableEq

/-- Modelled from the spec: tx.Nodes().Create fails with ErrExist when the
row is present, otherwise inserts. -/
def nodesCreate (s : Store) (n : Node) : Except StoreErr Store :=
  match lookupTab n.spec.id s.nodes with
  | some _ => .error .exist
  | none => .ok { s with nodes := setTab n.spec.id n s.nodes }

/-- Modelled from the spec: tx.Nodes().Update fails with ErrNotExist when
the row is absent, otherwise replaces it. -/
def nodesUpdate (s : Store) (n : Node) : Except StoreErr Store :=
  match lookupTab n.spec.id s.nodes with
  | none => .error .notExist
  | some _ => .ok { s with nodes := setTab n.spec.id n s.nodes }

/-- The errors the dispatcher RPCs return: NotFound carrying
ErrNodeNotRegistered, InvalidArgument carrying ErrSessionInvalid, or a
propagated store error. -/
inductive RPCErr where
  | notFound
  | invalidSession
  | store (e : StoreErr)
deriving DecidableEq

/-- api.RegisterRequest, restricted to the spec. -/
structure RegisterRequest where
  spec : NodeSpec
deriving DecidableEq

/-- api.RegisterResponse: the node ID and the session ID. -/
structure RegisterResponse where
  nodeID : String
  sessionID : String
deriving DecidableEq

/-- Dispatcher.registerNode: builds a registeredNode with a freshly
generated session ID and a heartbeat timer armed with the chosen period
times the grace multiplier, and inserts it into the node map.  The fresh
identifier, the random draw and the current time are passed in. -/
def registerNode (d : Dispatcher) (spec : NodeSpec) (freshID : String) (draw : Int)
    (now : Int) : Dispatcher × RegisteredNode :=
  let n : Node := { spec := spec, status := NodeState.unknown }
  let rn : RegisteredNode :=
    { sessionID := freshID
      heartbeat := heartbeatNew (d.periodChooser.choose draw * d.gracePeriodMultiplier) now
      tasks := []
      node := n }
  ({ d with nodes := setTab spec.id rn d.nodes }, rn)

/-- The store transaction of Dispatcher.Register: create the node, and if it
already exists update it instead. -/
def registerTx (n : Node) (s : Store) : Except StoreErr Store :=
  match nodesCreate s n with
  | .ok s2 => .ok s2
  | .error e => if e = .exist then nodesUpdate s n else .error e

/-- The tail of Dispatcher.Register shared by both lookup outcomes: sets the
node status to READY (a mutation through the pointer held in the map at the
looked-up key), runs the store transaction, and builds the response from the
node ID and session ID of the registered node. -/
def registerFinish (d1 : Dispatcher) (s : Store) (key : String) (rn : RegisteredNode) :
    Except RPCErr RegisterResponse × Dispatcher × Store :=
  let rn2 := { rn with node := { rn.node with status := NodeState.ready } }
  let d2 := { d1 with nodes := setTab key rn2 d1.nodes }
  match registerTx rn2.node s with
  | .ok s2 => (.ok { nodeID := rn2.node.spec.id, sessionID := rn2.sessionID }, d2, s2)
  | .error e => (.error (.store e), d2, s)

/-- Dispatcher.Register: looks the node up in the map; only when it is
absent does registerNode run and allocate a fresh session ID.  Either way
the registered node then has its status set to READY, is created or updated
in the store, and the response carries its node ID and session ID. -/
def register (d : Dispatcher) (s : Store) (r : RegisterRequest) (freshID : String)
    (draw : Int) (now : Int) : Except RPCErr RegisterResponse × Dispatcher × Store :=
  match lookupTab r.spec.id d.nodes with
  | some rn => registerFinish d s r.spec.id rn
  | none =>
    let (d1, rn) := registerNode d r.spec freshID draw now
    registerFinish d1 s r.spec.id rn

/-- api.UpdateTaskStatusRequest.TaskStatusUpdate: a task ID and its new
status. -/
structure TaskStatusUpdate where
  id : String
  status : Nat
deriving DecidableEq

/-- api.UpdateTaskStatusRequest: the node, its session and the updates. -/
structure UpdateTaskStatusRequest where
  nodeID : String
  sessionID : String
  tasks : List TaskStatusUpdate
deriving DecidableEq

/-- Modelled from the spec: tx.Tasks().Update applied to the value the
dispatcher builds from a status update; it fails with ErrNotExist when the
task row is absent and otherwise rewrites the status of the row. -/
def tasksUpdateStatus (s : Store) (tid : String) (st : Nat) : Except StoreErr Store :=
  match lookupTab tid s.tasks with
  | none => .error .notExist
  | some t => .ok { s with tasks := setTab tid { t with status := st } s.tasks }

/-- The body of the store transaction of Dispatcher.UpdateTaskStatus: apply
every update in order, stopping at the first failure. -/
def applyTaskUpdates (s : Store) : List TaskStatusUpdate → Except StoreErr Store
  | [] => .ok s
  | u :: rest =>
    match tasksUpdateStatus s u.id u.status with
    | .ok s2 => applyTaskUpdates s2 rest
    | .error e => .error e

/-- Dispatcher.UpdateTaskStatus: NotFound when the node is not registered,
InvalidSession when the session identifier of the registered node differs
from the one in the request (registeredNode.checkSessionID), and otherwise
one store transaction applying all the updates; the transaction commits only
when every update succeeded, otherwise the store is left unchanged and the
error is returned. -/
def updateTaskStatus (d : Dispatcher) (s : Store) (r : UpdateTaskStatusRequest) :
    Except RPCErr Unit × Store :=
  match lookupTab r.nodeID d.nodes with
  | none => (.error .notFound, s)
  | some rn =>
    if rn.sessionID ≠ r.sessionID then (.error .invalidSession, s)
    else
      match applyTaskUpdates s r.tasks with
      | .ok s2 => (.ok (), s2)
      | .error e => (.error (.store e), s)

/-- The store events the Tasks stream subscribes to: EventCreateTask,
EventUpdateTask and EventDeleteTask. -/
inductive TaskEvent where
  | createTask (t : Task)
  | updateTask (t : Task)
  | deleteTask (t : Task)
deriving DecidableEq

/-- The task carried by a task event. -/
def TaskEvent.task : TaskEvent → Task
  | .createTask t => t
  | .updateTask t => t
  | .deleteTask t => t

/-- state.TaskCheckNodeID, the filter of the watch subscription of the Tasks
stream: only events whose task belongs to the node pass. -/
def taskCheckNodeID (nid : String) (e : TaskEvent) : Bool :=
  e.task.nodeID = nid

/-- One step of the select body of the Tasks stream: create and update
events insert or replace the task in the in-memory map, delete events remove
it. -/
def applyTaskEvent (m : List (String × Task)) : TaskEvent → List (String × Task)
  | .createTask t => setTab t.id t m
  | .updateTask t => setTab t.id t m
  | .deleteTask t => eraseTab t.id m

/-- The initial in-memory task map of the Tasks stream: the store tasks
found by node ID, inserted into an empty map keyed by task ID. -/
def initTaskMap (s : Store) (nid : String) : List (String × Task) :=
  (s.tasks.filter (fun kv => kv.2.nodeID = nid)).foldl
    (fun m kv => setTab kv.2.id kv.2 m) []

/-- One observed outcome of the select at the bottom of the Tasks stream
loop: either an event arrived on the (already node-filtered) watch channel,
or the context of the client was cancelled. -/
inductive StreamInput where
  | ev (e : TaskEvent)
  | done
deriving DecidableEq

/-- How a modelled stream run ended: the per-iteration session check failed,
the client cancelled, or the modelled trace of select outcomes ran out with
the stream still open. -/
inductive StreamEnd where
  | invalidSession
  | clientDone
  | exhausted
deriving DecidableEq

/-- api.TasksRequest: the node and its session. -/
structure TasksRequest where
  nodeID : String
  sessionID : String
deriving DecidableEq

/-- The loop of Dispatcher.Tasks.  Each element of the trace is one
iteration: the session identifier the registered node has at the time of the
check at the top of the loop, and the outcome of the select.  An iteration
first checks the session (ending the stream with ErrSessionInvalid on
mismatch), then sends the full current task map, then handles the select
outcome. -/
def tasksStreamLoop (reqSession : String) (m : List (String × Task)) :
    List (String × StreamInput) → List (List (String × Task)) × StreamEnd
  | [] => ([], .exhausted)
  | (sess, inp) :: rest =>
    if sess ≠ reqSession then ([], .invalidSession)
    else
      match inp with
      | .done => ([m], .clientDone)
      | .ev e =>
        let res := tasksStreamLoop reqSession (applyTaskEvent m e) rest
        (m :: res.1, res.2)

/-- Dispatcher.Tasks: NotFound when the node is not registered, a session
check before the watch is set up, the initial snapshot of the tasks of the
node from a store view, then the loop.  Returns the sequence of sent
TasksMessage task maps and how the stream ended. -/
def tasksStream (d : Dispatcher) (s : Store) (r : TasksRequest)
    (trace : List (String × StreamInput)) :
    Except RPCErr (List (List (String × Task)) × StreamEnd) :=
  match lookupTab r.nodeID d.nodes with
  | none => .error .notFound
  | some rn =>
    if rn.sessionID ≠ r.sessionID then .error .invalidSession
    else .ok (tasksStreamLoop r.sessionID (initTaskMap s r.nodeID) trace)

/-- The task map after a sequence of task events has been applied. -/
def foldEvents (m : List (String × Task)) (es : List TaskEvent) : List (String × Task) :=
  es.foldl applyTaskEvent m

/-- The messages the Tasks stream loop emits while it consumes a sequence of
events under a matching session: one full task map per iteration, each
reflecting the events applied so far. -/
def evScan (m : List (String × Task)) : List TaskEvent → List (List (String × Task))
  | [] => []
  | e :: rest => m :: evScan (applyTaskEvent m e) rest

/-- Dispatcher.nodeDown: deletes the node from the registered-node map, then
updates the store row of the node to status DOWN; on store failure it
returns an error value that the heartbeat callback merely logs. -/
def nodeDown (d : Dispatcher) (s : Store) (id : String) :
    Dispatcher × Store × Option String :=
  let d2 := { d with nodes := eraseTab id d.nodes }
  match nodesUpdate s { spec := { id := id }, status := NodeState.down } with
  | .ok s2 => (d2, s2, none)
  | .error _ => (d2, s, some ("failed to update node " ++ id ++ " status to down"))

/-- The callback installed by registerNode, run when the heartbeat timer of
a node fires: it calls nodeDown and, when that fails, only logs; no error is
surfaced to any RPC caller (the returned list is the log). -/
def onHeartbeatExpire (d : Dispatcher) (s : Store) (nid : String) :
    Dispatcher × Store × List String :=
  match nodeDown d s nid with
  | (d2, s2, none) => (d2, s2, [])
  | (d2, s2, some msg) =>
    (d2, s2, ["error deregistering node " ++ nid ++
      " after heartbeat was not received: " ++ msg])

/-- api.HeartbeatRequest: the node and its session. -/
structure HeartbeatRequest where
  nodeID : String
  sessionID : String
deriving DecidableEq

/-- api.HeartbeatResponse: the period the node should beat within. -/
structure HeartbeatResponse where
  period : Int
deriving DecidableEq

/-- Dispatcher.Heartbeat: NotFound when the node is not registered; a period
is chosen and the grace computed, then the session is checked, returning
ErrSessionInvalid on mismatch before the timer is touched; on a match the
timer has its ttl updated to the grace and is beaten, and the response
carries the period. -/
def heartbeatRPC (d : Dispatcher) (r : HeartbeatRequest) (draw : Int) (now : Int) :
    Except RPCErr HeartbeatResponse × Dispatcher :=
  match lookupTab r.nodeID d.nodes with
  | none => (.error .notFound, d)
  | some node =>
    let period := d.periodChooser.choose draw
    let grace := period * d.gracePeriodMultiplier
    if node.sessionID ≠ r.sessionID then (.error .invalidSession, d)
    else
      let node2 := { node with heartbeat := (node.heartbeat.update grace).beat now }
      (.ok { period := period }, { d with nodes := setTab r.nodeID node2 d.nodes })

/-- api.WeightedPeer: a manager address and its weight. -/
structure WeightedPeer where
  addr : String
  weight : Int
deriving DecidableEq

/-- Dispatcher.getManagers: the single configured address with weight 1. -/
def getManagers (d : Dispatcher) : List WeightedPeer :=
  [{ addr := d.addr, weight := 1 }]

/-- api.SessionMessage: the manager list and the disconnect flag. -/
structure SessionMessage where
  managers : List WeightedPeer
  disconnect : Bool
deriving DecidableEq

/-- api.SessionRequest: the node and its session. -/
structure SessionRequest where
  nodeID : String
  sessionID : String
deriving DecidableEq

/-- The loop of Dispatcher.Session.  Each element of the trace is the
session identifier the registered node has at the top of one iteration; a
mismatch ends the stream with ErrSessionInvalid, otherwise a SessionMessage
with the managers and Disconnect false is sent and the loop sleeps. -/
def sessionStreamLoop (d : Dispatcher) (reqSession : String) :
    List String → List SessionMessage × StreamEnd
  | [] => ([], .exhausted)
  | sess :: rest =>
    if sess ≠ reqSession then ([], .invalidSession)
    else
      let res := sessionStreamLoop d reqSession rest
      ({ managers := getManagers d, disconnect := false } :: res.1, res.2)

/-- Dispatcher.Session: NotFound when the node is not registered, then the
loop.  Returns the sequence of sent SessionMessage values and how the
stream ended. -/
def sessionStream (d : Dispatcher) (r : SessionRequest) (trace : List String) :
    Except RPCErr (List SessionMessage × StreamEnd) :=
  match lookupTab r.nodeID d.nodes with
  | none => .error .notFound
  | some _ => .ok (sessionStreamLoop d r.sessionID trace)

theorem registerTx_isOk (n : Node) (s : Store) : ∃ s2, registerTx n s = .ok s2 := by
  unfold registerTx nodesCreate nodesUpdate
  cases h : lookupTab n.spec.id s.nodes <;> simp [h]


/-- A concrete registered node used by witnesses and counterexamples. -/
def exRN1 : RegisteredNode :=
  { sessionID := "s1"
    heartbeat := { ttl := 15, deadline := 15 }
    tasks := []
    node := { spec := { id := "n1" }, status := NodeState.ready } }

/-- A concrete dispatcher with the node n1 registered under session s1. -/
def exDispatcher : Dispatcher :=
  { addr := "addr1"
    nodes := [("n1", exRN1)]
    gracePeriodMultiplier := 3
    periodChooser := { period := 5, epsilon := 1 } }

/-- A concrete store with a row for n1 and two tasks of n1. -/
def exStore : Store :=
  { nodes := [("n1", { spec := { id := "n1" }, status := NodeState.ready })]
    tasks :=
      [("t1", { id := "t1", nodeID := "n1", status := 0 }),
       ("t2", { id := "t2", nodeID := "n1", status := 0 })] }

/-- A concrete status-update request used by the C5 witness. -/
def exUpdReq : UpdateTaskStatusRequest :=
  { nodeID := "n1", sessionID := "s1", tasks := [{ id := "t1", status := 4 }] }

/-- The concrete store after the C5 witness request commits. -/
def exStore2 : Store :=
  { nodes := exStore.nodes
    tasks :=
      [("t1", { id := "t1", nodeID := "n1", status := 4 }),
       ("t2", { id := "t2", nodeID := "n1", status := 0 })] }

end dispatcher

namespace ca

/-- Modelled from the spec: ca/certificates.go is not part of the excerpt
(only its tests are), so X.509 material is abstracted.  A distinguished name
carries the common name, the organizational units and the organizations;
equality of these fields stands for equality of the raw subject DER. -/
structure DName where
  cn : String
  ou : List String
  o : List String
deriving DecidableEq

/-- Modelled from the spec: a parsed certificate, abstracted to the fields
the claims are about.  The public key (standing for the raw
SubjectPublicKeyInfo) and the key that produced the signature are abstracted
to numbers; the signature of a certificate verifies under a parent exactly
when the issuer name matches the subject name of the parent and the signing
key matches the public key of the parent. -/
structure Cert where
  subjectName : DName
  issuerName : DName
  pubkey : Nat
  authorKey : Nat
  notBefore : Int
  notAfter : Int
  isCA : Bool
  dnsNames : List String
deriving DecidableEq

/-- Whether the signature on c verifies under parent p (the embedding of
x509 CheckSignatureFrom). -/
def signedBy (c p : Cert) : Bool :=
  c.issuerName = p.subjectName && c.authorKey = p.pubkey

/-- Whether a certificate window contains the instant now. -/
def validAt (now : Int) (c : Cert) : Bool :=
  c.notBefore ≤ now && now ≤ c.notAfter

/-- Whether the validity windows of all the certificates in the list have a
common instant: the intersection of closed intervals is nonempty exactly
when every lower bound is at most every upper bound. -/
def overlapOK (cs : List Cert) : Bool :=
  cs.all (fun c => cs.all (fun c2 => c.notBefore ≤ c2.notAfter))

/-- Whether each certificate in the bundle is signed by the next one
(adjacency in the order leaf first). -/
def chainLinked : List Cert → Bool
  | [] => true
  | [_] => true
  | a :: b :: rest => signedBy a b && chainLinked (b :: rest)

/-- The trust and signer errors of section 7 that the embedded operations
distinguish. -/
inductive TrustErr where
  | malformed
  | empty
  | notAChain
  | notYetValid
  | expired
  | noTimeOverlap
  | unknownAuthority
  | notACA
  | noValidSigner
deriving DecidableEq

/-- Modelled from the spec, section 4.B: ValidateCertChain.  A PEM bundle is
embedded as the list of certificates it decodes to (a bundle that fails to
decode is outside the embedding).  Steps: fail Empty on zero certificates;
enforce adjacency, failing NotAChain; enforce that no certificate is
future-dated; with allowExpiry false additionally enforce that no
certificate is expired; then chain the last bundle certificate to a root of
the pool, failing UnknownAuthority when no root matches; with allowExpiry
true the validity windows of the bundle together with the window of some
matching root must share an instant, failing NoTimeOverlap otherwise, and
with allowExpiry false some matching root must be currently valid. -/
def ValidateCertChain (rootPool : List Cert) (bundle : List Cert) (now : Int)
    (allowExpiry : Bool) : Except TrustErr (List Cert) :=
  match bundle.getLast? with
  | none => .error .empty
  | some lastc =>
    if ¬ chainLinked bundle then .error .notAChain
    else if bundle.any (fun c => now < c.notBefore) then .error .notYetValid
    else if ¬ allowExpiry && bundle.any (fun c => c.notAfter < now) then .error .expired
    else
      let candidates := rootPool.filter (fun r => signedBy lastc r)
      if candidates.isEmpty then .error .unknownAuthority
      else if allowExpiry then
        if candidates.any (fun r => overlapOK (r :: bundle)) then .ok bundle
        else .error .noTimeOverlap
      else
        if candidates.any (fun r => validAt now r) then .ok bundle
        else .error .unknownAuthority

/-- Modelled from the spec: the signer of a RootCA, a signing certificate
and its private key (identified by the public key it matches). -/
structure Signer where
  cert : Cert
  key : Nat
deriving DecidableEq

/-- Modelled from the spec: a RootCA holds the root bundle, an optional
signer and the leaf expiration duration. -/
structure RootCA where
  certs : List Cert
  signer : Option Signer
  leafExpiry : Int
deriving DecidableEq

/-- Modelled from the spec: a certificate signing request, carrying the
names requested by the (untrusted) submitter and the public key to
certify.  A byte string that does not parse as a CSR is embedded as
none. -/
structure CSR where
  cn : String
  ous : List String
  orgs : List String
  hosts : List String
  pubkey : Nat
deriving DecidableEq

/-- Modelled from the spec, section 4.C: RootCA.ParseValidateAndSignCSR.
Fails NoValidSigner without a signer and Malformed on an unparseable CSR;
otherwise the subject common name, organizational unit and organization are
overwritten with the values supplied by the server, and the subject
alternative names are the organizational unit and the common name plus any
additional DNS names the server passes — the names requested in the CSR are
discarded; only its public key is used.  The leaf is signed by the signer
and valid for leafExpiry from now. -/
def ParseValidateAndSignCSR (rca : RootCA) (csr : Option CSR) (cn ou org : String)
    (additionalDNSNames : List String) (now : Int) : Except TrustErr Cert :=
  match rca.signer with
  | none => .error .noValidSigner
  | some s =>
    match csr with
    | none => .error .malformed
    | some req =>
      .ok
        { subjectName := { cn := cn, ou := [ou], o := [org] }
          issuerName := s.cert.subjectName
          pubkey := req.pubkey
          authorKey := s.key
          notBefore := now
          notAfter := now + rca.leafExpiry
          isCA := false
          dnsNames := [ou, cn] ++ additionalDNSNames }

/-- Modelled from the spec, section 4.C: RootCA.CrossSignCACertificate.
Fails NoValidSigner without a signer, Malformed when the input bytes do not
parse as a certificate, and NotACA when the parsed certificate is not a CA;
otherwise it emits an intermediate copying the subject and the public key of
the input, signed by the signer of this RootCA, with isCA true. -/
def CrossSignCACertificate (rca : RootCA) (other : Option Cert) : Except TrustErr Cert :=
  match rca.signer with
  | none => .error .noValidSigner
  | some s =>
    match other with
    | none => .error .malformed
    | some c =>
      if ¬ c.isCA then .error .notACA
      else
        .ok
          { subjectName := c.subjectName
            issuerName := s.cert.subjectName
            pubkey := c.pubkey
            authorKey := s.key
            notBefore := c.notBefore
            notAfter := c.notAfter
            isCA := true
            dnsNames := c.dnsNames }

/-- A concrete self-signed root certificate used by witnesses. -/
def exRootCert1 : Cert :=
  { subjectName := { cn := "rootCN", ou := [], o := [] }
    issuerName := { cn := "rootCN", ou := [], o := [] }
    pubkey := 1, authorKey := 1, notBefore := 0, notAfter := 1000
    isCA := true, dnsNames := [] }

/-- The signer of the concrete root. -/
def exSigner1 : Signer := { cert := exRootCert1, key := 1 }

/-- A concrete RootCA with a signer. -/
def exRootCA1 : RootCA := { certs := [exRootCert1], signer := some exSigner1, leafExpiry := 100 }

/-- A second concrete self-signed root certificate, cross-signed in the C8
witness. -/
def exRootCert2 : Cert :=
  { subjectName := { cn := "rootCN2", ou := [], o := [] }
    issuerName := { cn := "rootCN2", ou := [], o := [] }
    pubkey := 5, authorKey := 5, notBefore := 0, notAfter := 1000
    isCA := true, dnsNames := [] }

/-- A concrete leaf (non-CA) certificate. -/
def exLeafCert : Cert :=
  { subjectName := { cn := "leaf", ou := [], o := [] }
    issuerName := { cn := "rootCN2", ou := [], o := [] }
    pubkey := 6, authorKey := 5, notBefore := 0, notAfter := 1000
    isCA := false, dnsNames := [] }

/-- A CSR carrying hostile requested names, mirroring the malicious-CSR
test. -/
def exMaliciousCSR : CSR :=
  { cn := "maliciousCN", ous := ["maliciousOU"], orgs := ["maliciousOrg"]
    hosts := ["docker.com"], pubkey := 7 }

/-- A concrete intermediate signed by the root, window 0 to 1000. -/
def exIntermediate : Cert :=
  { subjectName := { cn := "im", ou := [], o := [] }
    issuerName := { cn := "rootCN", ou := [], o := [] }
    pubkey := 2, authorKey := 1, notBefore := 0, notAfter := 1000
    isCA := true, dnsNames := [] }

/-- A concrete intermediate like exIntermediate but valid only from 20 on,
so its window misses the window of the expired leaf. -/
def exGapIntermediate : Cert :=
  { subjectName := { cn := "im", ou := [], o := [] }
    issuerName := { cn := "rootCN", ou := [], o := [] }
    pubkey := 2, authorKey := 1, notBefore := 20, notAfter := 1000
    isCA := true, dnsNames := [] }

/-- A concrete leaf signed by the intermediate, expired at instant 50. -/
def exExpiredLeaf : Cert :=
  { subjectName := { cn := "leaf", ou := [], o := [] }
    issuerName := { cn := "im", ou := [], o := [] }
    pubkey := 3, authorKey := 2, notBefore := 0, notAfter := 10
    isCA := false, dnsNames := [] }

/-- A concrete leaf signed by the intermediate, not yet valid at instant
50. -/
def exFutureLeaf : Cert :=
  { subjectName := { cn := "leaf", ou := [], o := [] }
    issuerName := { cn := "im", ou := [], o := [] }
    pubkey := 3, authorKey := 2, notBefore := 100, notAfter := 200
    isCA := false, dnsNames := [] }

end ca


/-!
Theorems.  Each claim of the specification is settled by one theorem below;
the helper lemmas are shared.
-/

theorem lookupTab_setTab_self {α : Type} (k : String) (v : α) (t : List (String × α)) :
    lookupTab k (setTab k v t) = some v := by
  induction t with
  | nil => simp [lookupTab, setTab]
  | cons hd tl ih =>
    obtain ⟨k2, v2⟩ := hd
    by_cases h : k2 = k
    · simp [lookupTab, setTab, h]
    · simp [lookupTab, setTab, h, ih]

theorem lookupTab_setTab_ne {α : Type} (k k2 : String) (v : α) (t : List (String × α))
    (h : k2 ≠ k) : lookupTab k (setTab k2 v t) = lookupTab k t := by
  induction t with
  | nil => simp [lookupTab, setTab, h]
  | cons hd tl ih =>
    obtain ⟨k3, v3⟩ := hd
    by_cases h3 : k3 = k2
    · subst h3
      simp [lookupTab, setTab, h]
    · by_cases h4 : k3 = k
      · subst h4
        simp [lookupTab, setTab, h3, Ne.symm h]
      · simp [lookupTab, setTab, h3, h4, ih]

theorem lookupTab_eraseTab_self {α : Type} (k : String) (t : List (String × α)) :
    lookupTab k (eraseTab k t) = none := by
  induction t with
  | nil => simp [lookupTab, eraseTab]
  | cons hd tl ih =>
    obtain ⟨k2, v2⟩ := hd
    by_cases h : k2 = k
    · simp [eraseTab, h, ih]
    · simp [lookupTab, eraseTab, h, ih]

namespace dispatcher



theorem registerFinish_spec (d1 : Dispatcher) (s : Store) (key : String)
    (rn : RegisteredNode) :
    (registerFinish d1 s key rn).1 =
      .ok { nodeID := rn.node.spec.id, sessionID := rn.sessionID } ∧
    lookupTab key (registerFinish d1 s key rn).2.1.nodes =
      some { rn with node := { rn.node with status := NodeState.ready } } := by
  obtain ⟨s2, hs2⟩ := registerTx_isOk { rn.node with status := NodeState.ready } s
  unfold registerFinish
  simp only [hs2]
  exact ⟨trivial, lookupTab_setTab_self key _ d1.nodes⟩

/-- C1 (amended): a Register call for a node already present in the
registered-node map does not allocate a new sessionID; the response carries
the existing sessionID of that node and the map keeps it.  Only a
registration for a node absent from the map hands out the freshly generated
sessionID. -/
theorem claim_C1 (d : Dispatcher) (s : Store) (r : RegisterRequest) (freshID : String)
    (draw : Int) (now : Int) :
    (∀ rn, lookupTab r.spec.id d.nodes = some rn →
      (register d s r freshID draw now).1 =
        .ok { nodeID := rn.node.spec.id, sessionID := rn.sessionID } ∧
      (lookupTab r.spec.id (register d s r freshID draw now).2.1.nodes).map
          RegisteredNode.sessionID = some rn.sessionID) ∧
    (lookupTab r.spec.id d.nodes = none →
      (register d s r freshID draw now).1 =
        .ok { nodeID := r.spec.id, sessionID := freshID }) := by
  constructor
  · intro rn h
    have hreg : register d s r freshID draw now = registerFinish d s r.spec.id rn := by
      unfold register
      simp [h]
    obtain ⟨h1, h2⟩ := registerFinish_spec d s r.spec.id rn
    rw [hreg]
    exact ⟨h1, by rw [h2]; rfl⟩
  · intro h
    have hreg : register d s r freshID draw now =
        registerFinish (registerNode d r.spec freshID draw now).1 s r.spec.id
          (registerNode d r.spec freshID draw now).2 := by
      unfold register
      simp [h]
    rw [hreg]
    exact (registerFinish_spec _ s r.spec.id _).1

/-- C1 counterexample: in a dispatcher where node n1 is registered under
sessionID s1, a fresh Register call for n1 (with fresh identifier s2
available) responds with the unchanged previous sessionID s1, so a fresh
registration does not allocate a new sessionID. -/
theorem claim_C1_counterexample :
    (lookupTab "n1" exDispatcher.nodes).map RegisteredNode.sessionID = some "s1" ∧
    (register exDispatcher exStore { spec := { id := "n1" } } "s2" 0 0).1 =
      .ok { nodeID := "n1", sessionID := "s1" } := by
  constructor
  · rfl
  · exact (((claim_C1 exDispatcher exStore { spec := { id := "n1" } } "s2" 0 0).1)
      exRN1 rfl).1

/-- C1 witness: the amended theorem applied to the concrete dispatcher. -/
theorem claim_C1_witness :
    (register exDispatcher exStore { spec := { id := "n1" } } "s2" 0 0).1 =
      .ok { nodeID := "n1", sessionID := "s1" } ∧
    (lookupTab "n1" (register exDispatcher exStore { spec := { id := "n1" } }
        "s2" 0 0).2.1.nodes).map RegisteredNode.sessionID = some "s1" :=
  (claim_C1 exDispatcher exStore { spec := { id := "n1" } } "s2" 0 0).1 exRN1 rfl


/-- C4: when the heartbeat timer of a registered node fires, the callback
installed by registerNode removes the node from the registered-node map and
updates the store row of the node to status DOWN; the transition surfaces no
error to any RPC caller — on store failure the callback only logs, and when
the row exists nothing is even logged. -/
theorem claim_C4 (d : Dispatcher) (s : Store) (nid : String) (n : Node)
    (h : lookupTab nid s.nodes = some n) :
    lookupTab nid (onHeartbeatExpire d s nid).1.nodes = none ∧
    lookupTab nid (onHeartbeatExpire d s nid).2.1.nodes =
      some { spec := { id := nid }, status := NodeState.down } ∧
    (onHeartbeatExpire d s nid).2.2 = [] := by
  have hupd : nodesUpdate s { spec := { id := nid }, status := NodeState.down } =
      .ok { s with nodes := setTab nid { spec := { id := nid }, status := NodeState.down } s.nodes } := by
    unfold nodesUpdate
    simp [h]
  have hdown : nodeDown d s nid =
      ({ d with nodes := eraseTab nid d.nodes },
       { s with nodes := setTab nid { spec := { id := nid }, status := NodeState.down } s.nodes },
       none) := by
    unfold nodeDown
    rw [hupd]
  unfold onHeartbeatExpire
  rw [hdown]
  refine ⟨lookupTab_eraseTab_self nid d.nodes, ?_, rfl⟩
  exact lookupTab_setTab_self nid _ s.nodes

/-- C4 witness: the theorem applied to the concrete dispatcher and store. -/
theorem claim_C4_witness :
    lookupTab "n1" (onHeartbeatExpire exDispatcher exStore "n1").1.nodes = none ∧
    lookupTab "n1" (onHeartbeatExpire exDispatcher exStore "n1").2.1.nodes =
      some { spec := { id := "n1" }, status := NodeState.down } ∧
    (onHeartbeatExpire exDispatcher exStore "n1").2.2 = [] :=
  claim_C4 exDispatcher exStore "n1"
    { spec := { id := "n1" }, status := NodeState.ready } rfl

/-- C9: a Heartbeat request for a registered node whose sessionID differs
from the current sessionID of the node returns InvalidSession and leaves the
dispatcher — in particular the heartbeat timer of the node, its ttl and its
deadline — untouched: the session check precedes Update and Beat. -/
theorem claim_C9 (d : Dispatcher) (r : HeartbeatRequest) (draw : Int) (now : Int)
    (node : RegisteredNode) (hlk : lookupTab r.nodeID d.nodes = some node)
    (hsess : node.sessionID ≠ r.sessionID) :
    heartbeatRPC d r draw now = (.error .invalidSession, d) ∧
    lookupTab r.nodeID (heartbeatRPC d r draw now).2.nodes = some node := by
  have h : heartbeatRPC d r draw now = (.error .invalidSession, d) := by
    unfold heartbeatRPC
    simp [hlk, hsess]
  exact ⟨h, by rw [h]; exact hlk⟩

/-- C9 witness: a stale-session heartbeat against the concrete dispatcher. -/
theorem claim_C9_witness :
    heartbeatRPC exDispatcher { nodeID := "n1", sessionID := "stale" } 0 100 =
      (.error .invalidSession, exDispatcher) ∧
    lookupTab "n1" (heartbeatRPC exDispatcher { nodeID := "n1", sessionID := "stale" }
      0 100).2.nodes = some exRN1 :=
  claim_C9 exDispatcher { nodeID := "n1", sessionID := "stale" } 0 100 exRN1 rfl
    (by decide)


/-- C7: for a positive epsilon, whatever the random draw, a successful
Heartbeat returns a period within epsilon of the base period (inclusive),
and the heartbeat timer of the node is reset so that its ttl is that period
times the grace-period multiplier and its deadline is now plus that
grace. -/
theorem claim_C7 (d : Dispatcher) (r : HeartbeatRequest) (draw : Int) (now : Int)
    (node : RegisteredNode) (heps : 0 < d.periodChooser.epsilon)
    (hlk : lookupTab r.nodeID d.nodes = some node)
    (hsess : node.sessionID = r.sessionID) :
    ∃ resp d2, heartbeatRPC d r draw now = (.ok resp, d2) ∧
      d.periodChooser.period - d.periodChooser.epsilon ≤ resp.period ∧
      resp.period ≤ d.periodChooser.period + d.periodChooser.epsilon ∧
      (lookupTab r.nodeID d2.nodes).map RegisteredNode.heartbeat =
        some { ttl := resp.period * d.gracePeriodMultiplier,
               deadline := now + resp.period * d.gracePeriodMultiplier } := by
  set grace := d.periodChooser.choose draw * d.gracePeriodMultiplier with hgrace
  set hb2 : Heartbeat := { ttl := grace, deadline := now + grace } with hhb2
  set node2 : RegisteredNode := { node with heartbeat := hb2 } with hnode2
  have heq : heartbeatRPC d r draw now =
      (.ok { period := d.periodChooser.choose draw },
       { d with nodes := setTab r.nodeID node2 d.nodes }) := by
    unfold heartbeatRPC
    simp [hlk, hsess, Heartbeat.update, Heartbeat.beat, hnode2, hhb2]
  have h2 : (0 : Int) < 2 * d.periodChooser.epsilon := by linarith
  have hm1 : 0 ≤ draw % (2 * d.periodChooser.epsilon) := Int.emod_nonneg draw (ne_of_gt h2)
  have hm2 : draw % (2 * d.periodChooser.epsilon) < 2 * d.periodChooser.epsilon :=
    Int.emod_lt_of_pos draw h2
  have hchoose : d.periodChooser.choose draw =
      d.periodChooser.period + (draw % (2 * d.periodChooser.epsilon) -
        d.periodChooser.epsilon) := by
    unfold PeriodChooser.choose
    simp [heps]
  refine ⟨_, _, heq, ?_, ?_, ?_⟩
  · rw [hchoose]
    dsimp only
    linarith
  · rw [hchoose]
    dsimp only
    linarith
  · rw [lookupTab_setTab_self]
    simp [hnode2, hhb2]

/-- C7 witness: the theorem applied to the concrete dispatcher, whose
chooser has base period 5 and epsilon 1. -/
theorem claim_C7_witness :
    ∃ resp d2,
      heartbeatRPC exDispatcher { nodeID := "n1", sessionID := "s1" } 0 100 =
        (.ok resp, d2) ∧
      exDispatcher.periodChooser.period - exDispatcher.periodChooser.epsilon ≤
        resp.period ∧
      resp.period ≤ exDispatcher.periodChooser.period +
        exDispatcher.periodChooser.epsilon ∧
      (lookupTab "n1" d2.nodes).map RegisteredNode.heartbeat =
        some { ttl := resp.period * exDispatcher.gracePeriodMultiplier,
               deadline := 100 + resp.period * exDispatcher.gracePeriodMultiplier } :=
  claim_C7 exDispatcher { nodeID := "n1", sessionID := "s1" } 0 100 exRN1
    (by decide) rfl rfl

theorem sessionStreamLoop_mem (d : Dispatcher) (q : String) :
    ∀ (trace : List String) (m : SessionMessage),
      m ∈ (sessionStreamLoop d q trace).1 →
      m = { managers := getManagers d, disconnect := false } := by
  intro trace
  induction trace with
  | nil => simp [sessionStreamLoop]
  | cons sess rest ih =>
    intro m hm
    unfold sessionStreamLoop at hm
    by_cases h : sess ≠ q
    · simp [h] at hm
    · simp [h] at hm
      rcases hm with hm | hm
      · exact hm
      · exact ih m hm

/-- C10: every message a Session stream emits carries Disconnect false and
exactly one WeightedPeer, the configured dispatcher address with weight 1;
the stream never asks the peer to reconnect elsewhere and never reports any
other manager. -/
theorem claim_C10 (d : Dispatcher) (r : SessionRequest) (trace : List String)
    (out : List SessionMessage × StreamEnd) (h : sessionStream d r trace = .ok out) :
    ∀ m ∈ out.1, m.disconnect = false ∧
      m.managers = [{ addr := d.addr, weight := 1 }] := by
  intro m hm
  have hout : out = sessionStreamLoop d r.sessionID trace := by
    unfold sessionStream at h
    cases hlk : lookupTab r.nodeID d.nodes with
    | none => rw [hlk] at h; cases h
    | some rn => rw [hlk] at h; cases h; rfl
  rw [hout] at hm
  have := sessionStreamLoop_mem d r.sessionID trace m hm
  rw [this]
  exact ⟨rfl, rfl⟩

/-- C10 witness: the theorem applied to a run of two iterations against the
concrete dispatcher, instantiated at the first emitted message. -/
theorem claim_C10_witness :
    (({ managers := [{ addr := "addr1", weight := 1 }], disconnect := false } :
        SessionMessage)).disconnect = false ∧
    (({ managers := [{ addr := "addr1", weight := 1 }], disconnect := false } :
        SessionMessage)).managers = [{ addr := exDispatcher.addr, weight := 1 }] := by
  refine claim_C10 exDispatcher { nodeID := "n1", sessionID := "s1" } ["s1", "s1"]
    ([{ managers := [{ addr := "addr1", weight := 1 }], disconnect := false },
      { managers := [{ addr := "addr1", weight := 1 }], disconnect := false }],
     StreamEnd.exhausted) rfl _ ?_
  simp


theorem applyTaskUpdates_lookup (us : List TaskStatusUpdate) :
    ∀ (s s2 : Store), applyTaskUpdates s us = .ok s2 → ∀ tid,
      lookupTab tid s2.tasks =
        (us.filter (fun u => u.id = tid)).foldl
          (fun acc u => acc.map (fun t => { t with status := u.status }))
          (lookupTab tid s.tasks) := by
  induction us with
  | nil =>
    intro s s2 h tid
    unfold applyTaskUpdates at h
    cases h
    simp
  | cons u rest ih =>
    intro s s2 h tid
    unfold applyTaskUpdates at h
    cases hu : tasksUpdateStatus s u.id u.status with
    | error e => rw [hu] at h; cases h
    | ok s1 =>
      rw [hu] at h
      unfold tasksUpdateStatus at hu
      cases hl : lookupTab u.id s.tasks with
      | none => rw [hl] at hu; cases hu
      | some t =>
        rw [hl] at hu
        cases hu
        rw [ih _ s2 h tid]
        by_cases htid : u.id = tid
        · subst htid
          simp [List.filter_cons, lookupTab_setTab_self, hl]
        · simp [List.filter_cons, htid, lookupTab_setTab_ne tid u.id _ _ htid]

/-- C5: for a registered node, UpdateTaskStatus fails with InvalidSession
and leaves the store untouched when the request sessionID differs from the
current sessionID of the node; with a matching session the updates are
applied as one transaction — on any task-update failure the whole
transaction fails and the store is unchanged, and on success the resulting
store holds, for every task identifier, the result of folding the status
updates of the request for that identifier over the prior row. -/
theorem claim_C5 (d : Dispatcher) (s : Store) (r : UpdateTaskStatusRequest)
    (rn : RegisteredNode) (hlk : lookupTab r.nodeID d.nodes = some rn) :
    (rn.sessionID ≠ r.sessionID →
      updateTaskStatus d s r = (.error .invalidSession, s)) ∧
    (rn.sessionID = r.sessionID →
      (∀ e, applyTaskUpdates s r.tasks = .error e →
        updateTaskStatus d s r = (.error (.store e), s)) ∧
      (∀ s2, applyTaskUpdates s r.tasks = .ok s2 →
        updateTaskStatus d s r = (.ok (), s2) ∧
        ∀ tid, lookupTab tid s2.tasks =
          (r.tasks.filter (fun u => u.id = tid)).foldl
            (fun acc u => acc.map (fun t => { t with status := u.status }))
            (lookupTab tid s.tasks))) := by
  refine ⟨?_, ?_⟩
  · intro hne
    unfold updateTaskStatus
    simp [hlk, hne]
  · intro hsess
    refine ⟨?_, ?_⟩
    · intro e he
      unfold updateTaskStatus
      simp [hlk, hsess, he]
    · intro s2 h2
      refine ⟨?_, applyTaskUpdates_lookup r.tasks s s2 h2⟩
      unfold updateTaskStatus
      simp [hlk, hsess, h2]

/-- C5 witness: a matching-session request updating task t1 to status 4
commits against the concrete store. -/
theorem claim_C5_witness :
    updateTaskStatus exDispatcher exStore exUpdReq = (.ok (), exStore2) :=
  (((claim_C5 exDispatcher exStore exUpdReq exRN1 rfl).2 rfl).2 exStore2 rfl).1


theorem lookupTab_eraseTab_ne {α : Type} (k k2 : String) (t : List (String × α))
    (h : k2 ≠ k) : lookupTab k (eraseTab k2 t) = lookupTab k t := by
  induction t with
  | nil => simp [lookupTab, eraseTab]
  | cons hd tl ih =>
    obtain ⟨k3, v3⟩ := hd
    by_cases h3 : k3 = k2
    · subst h3
      simp [lookupTab, eraseTab, h, ih]
    · simp [lookupTab, eraseTab, h3, ih]

theorem tasksStreamLoop_events (q : String) :
    ∀ (es : List TaskEvent) (m : List (String × Task))
      (tail : List (String × StreamInput)),
      tasksStreamLoop q m (es.map (fun e => (q, StreamInput.ev e)) ++ tail) =
        (evScan m es ++ (tasksStreamLoop q (foldEvents m es) tail).1,
         (tasksStreamLoop q (foldEvents m es) tail).2) := by
  intro es
  induction es with
  | nil =>
    intro m tail
    simp [evScan, foldEvents]
  | cons e rest ih =>
    intro m tail
    simp only [List.map_cons, List.cons_append]
    conv_lhs => rw [tasksStreamLoop]
    simp [ih (applyTaskEvent m e) tail, evScan, foldEvents]

theorem evScan_get (es : List TaskEvent) :
    ∀ (m : List (String × Task)) (k : Nat), k < es.length →
      (evScan m es)[k]? = some (foldEvents m (es.take k)) := by
  induction es with
  | nil => intro m k hk; simp at hk
  | cons e rest ih =>
    intro m k hk
    cases k with
    | zero => simp [evScan, foldEvents]
    | succ k2 =>
      simp only [evScan, List.getElem?_cons_succ, List.take_succ_cons]
      rw [ih (applyTaskEvent m e) k2 (by simpa using hk)]
      simp [foldEvents]

/-- C6: within one Tasks stream for a registered node with a matching
session, the initial message is the store snapshot of the tasks of the node
and each later message is the full in-memory task map after the events
received so far: create and update events insert or replace the task, delete
events remove it; when the client cancels the stream ends normally after the
last full map was sent, and as soon as the sessionID of the node differs
from the one of the request the stream ends with InvalidSession, emitting
nothing further. -/
theorem claim_C6 (d : Dispatcher) (s : Store) (r : TasksRequest)
    (rn : RegisteredNode) (hlk : lookupTab r.nodeID d.nodes = some rn)
    (hsess : rn.sessionID = r.sessionID) :
    (∀ es : List TaskEvent,
      tasksStream d s r (es.map (fun e => (r.sessionID, StreamInput.ev e)) ++
          [(r.sessionID, StreamInput.done)]) =
        .ok (evScan (initTaskMap s r.nodeID) es ++
          [foldEvents (initTaskMap s r.nodeID) es], StreamEnd.clientDone)) ∧
    (∀ (es : List TaskEvent) (badSess : String) (inp : StreamInput)
        (rest : List (String × StreamInput)), badSess ≠ r.sessionID →
      tasksStream d s r (es.map (fun e => (r.sessionID, StreamInput.ev e)) ++
          (badSess, inp) :: rest) =
        .ok (evScan (initTaskMap s r.nodeID) es, StreamEnd.invalidSession)) ∧
    (∀ (es : List TaskEvent) (k : Nat), k < es.length →
      (evScan (initTaskMap s r.nodeID) es)[k]? =
        some (foldEvents (initTaskMap s r.nodeID) (es.take k))) ∧
    (∀ (m : List (String × Task)) (t : Task) (k : String),
      lookupTab t.id (applyTaskEvent m (TaskEvent.createTask t)) = some t ∧
      lookupTab t.id (applyTaskEvent m (TaskEvent.updateTask t)) = some t ∧
      lookupTab t.id (applyTaskEvent m (TaskEvent.deleteTask t)) = none ∧
      (k ≠ t.id →
        lookupTab k (applyTaskEvent m (TaskEvent.createTask t)) = lookupTab k m ∧
        lookupTab k (applyTaskEvent m (TaskEvent.updateTask t)) = lookupTab k m ∧
        lookupTab k (applyTaskEvent m (TaskEvent.deleteTask t)) = lookupTab k m)) := by
  have hstream : ∀ trace, tasksStream d s r trace =
      .ok (tasksStreamLoop r.sessionID (initTaskMap s r.nodeID) trace) := by
    intro trace
    unfold tasksStream
    simp [hlk, hsess]
  refine ⟨?_, ?_, fun es k hk => evScan_get es (initTaskMap s r.nodeID) k hk, ?_⟩
  · intro es
    rw [hstream, tasksStreamLoop_events]
    unfold tasksStreamLoop
    simp
  · intro es badSess inp rest hbad
    rw [hstream, tasksStreamLoop_events]
    unfold tasksStreamLoop
    simp [hbad]
  · intro m t k
    refine ⟨lookupTab_setTab_self t.id t m, lookupTab_setTab_self t.id t m,
      lookupTab_eraseTab_self t.id m, ?_⟩
    intro hk
    exact ⟨lookupTab_setTab_ne k t.id t m (Ne.symm hk),
      lookupTab_setTab_ne k t.id t m (Ne.symm hk),
      lookupTab_eraseTab_ne k t.id m (Ne.symm hk)⟩

/-- C6 witness: scenario S6 against the concrete store — snapshot of tasks
t1 and t2, a create of t3, a delete of t1, then client cancellation; the
three emitted messages are the three successive full task maps. -/
theorem claim_C6_witness :
    tasksStream exDispatcher exStore { nodeID := "n1", sessionID := "s1" }
      [("s1", StreamInput.ev (TaskEvent.createTask { id := "t3", nodeID := "n1", status := 0 })),
       ("s1", StreamInput.ev (TaskEvent.deleteTask { id := "t1", nodeID := "n1", status := 0 })),
       ("s1", StreamInput.done)] =
      .ok ([[("t1", { id := "t1", nodeID := "n1", status := 0 }),
             ("t2", { id := "t2", nodeID := "n1", status := 0 })],
            [("t1", { id := "t1", nodeID := "n1", status := 0 }),
             ("t2", { id := "t2", nodeID := "n1", status := 0 }),
             ("t3", { id := "t3", nodeID := "n1", status := 0 })],
            [("t2", { id := "t2", nodeID := "n1", status := 0 }),
             ("t3", { id := "t3", nodeID := "n1", status := 0 })]],
           StreamEnd.clientDone) := by
  have h := (claim_C6 exDispatcher exStore { nodeID := "n1", sessionID := "s1" }
    exRN1 rfl rfl).1
    [TaskEvent.createTask { id := "t3", nodeID := "n1", status := 0 },
     TaskEvent.deleteTask { id := "t1", nodeID := "n1", status := 0 }]
  exact h

end dispatcher

namespace ca

/-- C2: for every RootCA with a signer and every parseable CSR — whatever
names the CSR requests — the signed leaf has subject common name, unit and
organization exactly the server-supplied values, its subject alternative
names are exactly the server-supplied common name, unit and additional DNS
names, and the result does not depend on the CSR beyond its public key, so
no name is ever taken from the CSR. -/
theorem claim_C2 (rca : RootCA) (s : Signer) (csr : CSR) (cn ou org : String)
    (extra : List String) (now : Int) (hs : rca.signer = some s) :
    ∃ cert, ParseValidateAndSignCSR rca (some csr) cn ou org extra now = .ok cert ∧
      cert.subjectName.cn = cn ∧
      cert.subjectName.ou = [ou] ∧
      cert.subjectName.o = [org] ∧
      cn ∈ cert.dnsNames ∧ ou ∈ cert.dnsNames ∧
      (∀ name ∈ extra, name ∈ cert.dnsNames) ∧
      (∀ name ∈ cert.dnsNames, name = cn ∨ name = ou ∨ name ∈ extra) ∧
      (∀ csr2 : CSR, csr2.pubkey = csr.pubkey →
        ParseValidateAndSignCSR rca (some csr2) cn ou org extra now =
          ParseValidateAndSignCSR rca (some csr) cn ou org extra now) := by
  refine ⟨{ subjectName := { cn := cn, ou := [ou], o := [org] }
            issuerName := s.cert.subjectName, pubkey := csr.pubkey, authorKey := s.key
            notBefore := now, notAfter := now + rca.leafExpiry, isCA := false
            dnsNames := [ou, cn] ++ extra }, ?_, rfl, rfl, rfl, ?_, ?_, ?_, ?_, ?_⟩
  · simp [ParseValidateAndSignCSR, hs]
  · simp [ParseValidateAndSignCSR, hs]
  · simp [ParseValidateAndSignCSR, hs]
  · intro name hn
    simp [ParseValidateAndSignCSR, hs, hn]
  · intro name hn
    simp [ParseValidateAndSignCSR, hs] at hn
    tauto
  · intro csr2 hk
    simp [ParseValidateAndSignCSR, hs, hk]

/-- C2 witness: the malicious CSR of the test, requesting maliciousCN,
maliciousOU, maliciousOrg and the host docker.com, yields a leaf carrying
only the server-supplied names; in particular docker.com is absent. -/
theorem claim_C2_witness :
    ∃ cert, ParseValidateAndSignCSR exRootCA1 (some exMaliciousCSR) "CN" "OU" "ORG"
        [] 0 = .ok cert ∧
      cert.subjectName.cn = "CN" ∧ cert.subjectName.ou = ["OU"] ∧
      cert.subjectName.o = ["ORG"] ∧ "docker.com" ∉ cert.dnsNames := by
  obtain ⟨cert, h1, h2, h3, h4, _, _, _, hsub, _⟩ :=
    claim_C2 exRootCA1 exSigner1 exMaliciousCSR "CN" "OU" "ORG" [] 0 rfl
  refine ⟨cert, h1, h2, h3, h4, fun hmem => ?_⟩
  rcases hsub "docker.com" hmem with h | h | h
  · exact absurd h (by decide)
  · exact absurd h (by decide)
  · simp at h

/-- C8: a RootCA with a signer cross-signing any CA certificate yields an
intermediate whose subject and public key equal those of the input and whose
isCA flag is true; cross-signing a non-CA certificate fails with NotACA and
cross-signing bytes that are not a certificate fails with Malformed. -/
theorem claim_C8 (rca : RootCA) (s : Signer) (hs : rca.signer = some s) :
    (∀ c : Cert, c.isCA = true →
      ∃ ic, CrossSignCACertificate rca (some c) = .ok ic ∧
        ic.subjectName = c.subjectName ∧ ic.pubkey = c.pubkey ∧ ic.isCA = true) ∧
    (∀ c : Cert, c.isCA = false →
      CrossSignCACertificate rca (some c) = .error .notACA) ∧
    CrossSignCACertificate rca none = .error .malformed := by
  refine ⟨?_, ?_, ?_⟩
  · intro c hca
    refine ⟨{ subjectName := c.subjectName, issuerName := s.cert.subjectName
              pubkey := c.pubkey, authorKey := s.key, notBefore := c.notBefore
              notAfter := c.notAfter, isCA := true, dnsNames := c.dnsNames },
      ?_, rfl, rfl, rfl⟩
    simp [CrossSignCACertificate, hs, hca]
  · intro c hca
    simp [CrossSignCACertificate, hs, hca]
  · simp [CrossSignCACertificate, hs]

/-- C8 witness: the concrete RootCA cross-signs the second concrete root,
fails on the concrete leaf and fails on unparseable bytes. -/
theorem claim_C8_witness :
    (∃ ic, CrossSignCACertificate exRootCA1 (some exRootCert2) = .ok ic ∧
      ic.subjectName = exRootCert2.subjectName ∧ ic.pubkey = exRootCert2.pubkey ∧
      ic.isCA = true) ∧
    CrossSignCACertificate exRootCA1 (some exLeafCert) = .error .notACA ∧
    CrossSignCACertificate exRootCA1 none = .error .malformed := by
  have h := claim_C8 exRootCA1 exSigner1 rfl
  exact ⟨h.1 exRootCert2 rfl, h.2.1 exLeafCert rfl, h.2.2⟩


/-- C3: with allowExpiry true, ValidateCertChain still rejects any bundle
containing a future-dated certificate (NotYetValid when the bundle is a
nonempty chain, an error in every case); it fails NoTimeOverlap when the
bundle chains to the pool but the validity windows of the bundle together
with the window of every matching root share no instant; and an expired
leaf or intermediate that otherwise chains to a root with a shared instant
validates successfully. -/
theorem claim_C3 (pool bundle : List Cert) (now : Int) :
    ((∃ c ∈ bundle, now < c.notBefore) →
      (ValidateCertChain pool bundle now true).isOk = false ∧
      (bundle ≠ [] → chainLinked bundle = true →
        ValidateCertChain pool bundle now true = .error .notYetValid)) ∧
    (∀ lastc, bundle.getLast? = some lastc → chainLinked bundle = true →
      (∀ c ∈ bundle, c.notBefore ≤ now) →
      pool.filter (fun r => signedBy lastc r) ≠ [] →
      (∀ r ∈ pool, signedBy lastc r = true → overlapOK (r :: bundle) = false) →
      ValidateCertChain pool bundle now true = .error .noTimeOverlap) ∧
    (∀ lastc, bundle.getLast? = some lastc → chainLinked bundle = true →
      (∀ c ∈ bundle, c.notBefore ≤ now) →
      (∃ r ∈ pool, signedBy lastc r = true ∧ overlapOK (r :: bundle) = true) →
      ValidateCertChain pool bundle now true = .ok bundle) := by
  refine ⟨?_, ?_, ?_⟩
  · rintro ⟨c, hc, hfut⟩
    have hany : bundle.any (fun c => now < c.notBefore) = true := by
      simp only [List.any_eq_true, decide_eq_true_eq]
      exact ⟨c, hc, hfut⟩
    constructor
    · unfold ValidateCertChain
      cases hlast : bundle.getLast? with
      | none => simp [Except.isOk, Except.toBool]
      | some lastc =>
        by_cases hlink : chainLinked bundle
        · simp [hlink, hany, Except.isOk, Except.toBool]
        · simp [hlink, Except.isOk, Except.toBool]
    · intro hne hlink
      obtain ⟨lastc, hlast⟩ : ∃ lastc, bundle.getLast? = some lastc := by
        refine Option.isSome_iff_exists.mp ?_
        rw [List.getLast?_isSome]
        exact hne
      unfold ValidateCertChain
      rw [hlast]
      simp [hlink, hany]
  · intro lastc hlast hlink hnb hcand hov
    have hfut : bundle.any (fun c => now < c.notBefore) = false := by
      simp only [List.any_eq_false, decide_eq_true_eq]
      intro c hc
      exact not_lt.mpr (hnb c hc)
    have hcandne : (pool.filter (fun r => signedBy lastc r)).isEmpty = false := by
      cases hc : (pool.filter (fun r => signedBy lastc r)).isEmpty
      · rfl
      · exact absurd (List.isEmpty_iff.mp hc) hcand
    have hany : (pool.filter (fun r => signedBy lastc r)).any
        (fun r => overlapOK (r :: bundle)) = false := by
      simp only [List.any_eq_false]
      intro r hr
      obtain ⟨hrp, hrs⟩ := List.mem_filter.mp hr
      simp [hov r hrp hrs]
    unfold ValidateCertChain
    rw [hlast]
    simp [hlink, hfut, hcandne, hany]
  · intro lastc hlast hlink hnb hex
    obtain ⟨r, hrp, hrs, hrov⟩ := hex
    have hfut : bundle.any (fun c => now < c.notBefore) = false := by
      simp only [List.any_eq_false, decide_eq_true_eq]
      intro c hc
      exact not_lt.mpr (hnb c hc)
    have hcandne : (pool.filter (fun r => signedBy lastc r)).isEmpty = false := by
      cases hc : (pool.filter (fun r => signedBy lastc r)).isEmpty
      · rfl
      · have : r ∈ pool.filter (fun r => signedBy lastc r) := List.mem_filter.mpr ⟨hrp, hrs⟩
        rw [List.isEmpty_iff.mp hc] at this
        cases this
    have hany : (pool.filter (fun r => signedBy lastc r)).any
        (fun r => overlapOK (r :: bundle)) = true := by
      simp only [List.any_eq_true]
      exact ⟨r, List.mem_filter.mpr ⟨hrp, hrs⟩, hrov⟩
    unfold ValidateCertChain
    rw [hlast]
    simp [hlink, hfut, hcandne, hany]

/-- C3 witness: at instant 50, with the concrete root pool — a future-dated
leaf fails NotYetValid even with allowExpiry; an expired leaf under an
intermediate whose window starts after the leaf window ends fails
NoTimeOverlap; and an expired leaf under the compatible intermediate
validates. -/
theorem claim_C3_witness :
    ValidateCertChain [exRootCert1] [exFutureLeaf, exIntermediate] 50 true =
      .error .notYetValid ∧
    ValidateCertChain [exRootCert1] [exExpiredLeaf, exGapIntermediate] 50 true =
      .error .noTimeOverlap ∧
    ValidateCertChain [exRootCert1] [exExpiredLeaf, exIntermediate] 50 true =
      .ok [exExpiredLeaf, exIntermediate] := by
  refine ⟨?_, ?_, ?_⟩
  · exact ((claim_C3 [exRootCert1] [exFutureLeaf, exIntermediate] 50).1
      (by decide)).2 (by decide) (by decide)
  · exact (claim_C3 [exRootCert1] [exExpiredLeaf, exGapIntermediate] 50).2.1
      exGapIntermediate (by decide) (by decide) (by decide) (by decide) (by decide)
  · exact (claim_C3 [exRootCert1] [exExpiredLeaf, exIntermediate] 50).2.2
      exIntermediate (by decide) (by decide) (by decide) (by decide)

end ca

end Swarmkit
